import Mathlib

/-
Verification of the koi pixel-stream codec (encoder src/koi/encoder/stream.rs,
decoder src/src/decoder/stream.rs) against its natural-language specification.

The two stream files are embedded faithfully below.  The crate modules they
pull in (`types.rs` with the pixel arithmetic and op-code constants,
`util.rs` with `pixel_hash`, and the `Reader`/`Writer` backend adapters) are
not part of the excerpted source; they are modelled from the specification,
which states that any self-consistent choice of the format constants satisfies
the design.  Bytes are natural numbers kept below 256 by explicit `% 256`
arithmetic; fallible operations return `Except`; the Rust slice panics of the
decoder are modelled by a dedicated error constructor.
-/

deriving instance DecidableEq for Except

namespace Koi

/-- An RGBA pixel value: four ordered byte channels (R, G, B, A). -/
structure RgbaColor where
  r : Nat
  g : Nat
  b : Nat
  a : Nat
deriving DecidableEq, Repr

/-- Modelled from the spec (types.rs not in src): the fixed recent-colors
cache size, 64 slots. -/
def CACHE_SIZE : Nat := 64

/-- Modelled from the spec (util.rs not in src): `pixel_hash` is a
deterministic multiplicative mix of all four channel bytes into [0, 64),
shared verbatim by encoder and decoder. -/
def pixel_hash (p : RgbaColor) : Nat :=
  (p.r * 3 + p.g * 5 + p.b * 7 + p.a * 11) % 64

/-- Modelled from the spec (types.rs not in src): start of the index op-code
range.  The decoder indexes `cache[b1]` directly with the leading byte, which
forces this range to start at 0x00. -/
def OP_INDEX : Nat := 0x00

/-- Modelled from the spec: end of the index op-code range (6 payload bits,
64 cache slots). -/
def OP_INDEX_END : Nat := 0x3f

/-- Modelled from the spec: start of the coarse colour-difference range
(2 bits per RGB channel in the leading byte). -/
def OP_DIFF : Nat := 0x40

/-- Modelled from the spec: end of the coarse colour-difference range. -/
def OP_DIFF_END : Nat := 0x7f

/-- Modelled from the spec: start of the luma-difference range (6-bit green
delta in the leading byte, one payload byte follows). -/
def OP_LUMA : Nat := 0x80

/-- Modelled from the spec: end of the luma-difference range. -/
def OP_LUMA_END : Nat := 0xbf

/-- Modelled from the spec: start of the reserved run-length range (present
in the decoder dispatch, never produced by the encoder). -/
def OP_RUNLENGTH : Nat := 0xc0

/-- Modelled from the spec: end of the reserved run-length range. -/
def OP_RUNLENGTH_END : Nat := 0xdf

/-- Modelled from the spec: start of the one-byte alpha-only difference
range (no decoder dispatch arm exists for it in the excerpted source). -/
def OP_DIFF_ALPHA : Nat := 0xe0

/-- Modelled from the spec: end of the alpha-only difference range. -/
def OP_DIFF_ALPHA_END : Nat := 0xef

/-- Modelled from the spec: the gray-literal op-code singleton. -/
def OP_GRAY : Nat := 0xfc

/-- Modelled from the spec: the gray-alpha-literal op-code singleton. -/
def OP_GRAY_ALPHA : Nat := 0xfd

/-- Modelled from the spec: the RGB-literal op-code singleton. -/
def OP_RGB : Nat := 0xfe

/-- Modelled from the spec: the RGBA-literal op-code singleton. -/
def OP_RGBA : Nat := 0xff

/-- Modelled from the spec: the fixed 8-byte end-of-image sentinel. -/
def END_OF_IMAGE : List Nat := [0, 0, 0, 0, 0, 0, 0, 1]

/-- Wraparound byte subtraction `(x - y) mod 256` (operands below 256). -/
def wsub (x y : Nat) : Nat := (x + 256 - y) % 256

/-- Wraparound byte addition `(x + y) mod 256`. -/
def wadd (x y : Nat) : Nat := (x + y) % 256

/-- Modelled from the spec (types.rs not in src): channel-wise wraparound
difference `curr - prev` modulo 256, used by both difference encodings. -/
def RgbaColor.diff (c p : RgbaColor) : RgbaColor :=
  ⟨wsub c.r p.r, wsub c.g p.g, wsub c.b p.b, wsub c.a p.a⟩

/-- Modelled from the spec (types.rs not in src): a pixel is gray when its
three colour channels coincide. -/
def RgbaColor.is_gray (c : RgbaColor) : Bool := c.r == c.g && c.g == c.b

/-- A wrapped channel delta lies in the coarse signed range [-2, 1]. -/
def inCoarse (d : Nat) : Bool := d ≤ 1 || 254 ≤ d

/-- Bias a wrapped coarse delta into its 2-bit field (254 ↦ 0, 255 ↦ 1,
0 ↦ 2, 1 ↦ 3). -/
def coarseBits (d : Nat) : Nat := (d + 2) % 256 % 4

/-- Modelled from the spec (types.rs not in src): `color_diff` packs a
2-bit-per-channel RGB difference into one op byte when every colour delta
fits the coarse range and alpha is unchanged. -/
def color_diff (d : RgbaColor) : Option Nat :=
  if d.a = 0 && inCoarse d.r && inCoarse d.g && inCoarse d.b then
    some (OP_DIFF + coarseBits d.r * 16 + coarseBits d.g * 4 + coarseBits d.b)
  else none

/-- A wrapped green delta lies in the luma signed range [-32, 31]. -/
def inLuma32 (d : Nat) : Bool := d ≤ 31 || 224 ≤ d

/-- A wrapped red/blue delta relative to green lies in the signed range
[-8, 7]. -/
def inLuma8 (d : Nat) : Bool := d ≤ 7 || 248 ≤ d

/-- Modelled from the spec (types.rs not in src): `luma_diff` encodes the
green delta in the leading byte and the red/blue deltas relative to green in
a second byte, when representable and alpha is unchanged. -/
def luma_diff (d : RgbaColor) : Option (List Nat) :=
  let vr := wsub d.r d.g
  let vb := wsub d.b d.g
  if d.a = 0 && inLuma32 d.g && inLuma8 vr && inLuma8 vb then
    some [OP_LUMA + (d.g + 32) % 256 % 64,
          ((vr + 8) % 256 % 16) * 16 + (vb + 8) % 256 % 16]
  else none

/-- Modelled from the spec (types.rs not in src): `prev.alpha_diff(curr)`
yields a one-byte op when only a small nonzero alpha delta separates the
pixels (signed range [-8, 7], bias 8). -/
def RgbaColor.alpha_diff (p c : RgbaColor) : Option Nat :=
  let da := wsub c.a p.a
  if da ≠ 0 && (da ≤ 7 || 248 ≤ da) then
    some (OP_DIFF_ALPHA + (da + 8) % 256 % 16)
  else none

/-- Modelled from the spec (types.rs not in src): decoder-side inverse of
`color_diff`, adding each biased 2-bit delta back onto the previous pixel
with wraparound; alpha is untouched. -/
def RgbaColor.apply_diff (p : RgbaColor) (b1 : Nat) : RgbaColor :=
  let v := b1 - OP_DIFF
  ⟨wadd p.r ((v / 16 % 4 + 254) % 256),
   wadd p.g ((v / 4 % 4 + 254) % 256),
   wadd p.b ((v % 4 + 254) % 256), p.a⟩

/-- Modelled from the spec (types.rs not in src): decoder-side inverse of
`luma_diff`; alpha is untouched. -/
def RgbaColor.apply_luma (p : RgbaColor) (b1 b2 : Nat) : RgbaColor :=
  let dg := (b1 - OP_LUMA + 224) % 256
  let dr := (dg + b2 / 16 % 16 + 248) % 256
  let db := (dg + b2 % 16 + 248) % 256
  ⟨wadd p.r dr, wadd p.g dg, wadd p.b db, p.a⟩

/-- Encoder session state, from `PixelEncoder` in src/koi/encoder/stream.rs.
The `Writer` backend is modelled as the pass-through strategy: emitted bytes
are returned alongside the state instead of being sunk into an I/O writer. -/
structure PixelEncoder where
  pixels_in : Nat
  pixels_count : Nat
  cache : List RgbaColor
  prev_pixel : RgbaColor
  buffer : List Nat
deriving DecidableEq, Repr

/-- `PixelEncoder::new` (src/koi/encoder/stream.rs lines 25-36): zeroed
cache, `prev_pixel = RgbaColor([0, 0, 0, 0])`, empty buffer. -/
def PixelEncoder.new (pixels_count : Nat) : PixelEncoder :=
  ⟨0, pixels_count, List.replicate CACHE_SIZE ⟨0, 0, 0, 0⟩, ⟨0, 0, 0, 0⟩, []⟩

/-- Encoder failure: the `assert_eq!(curr_pixel.0[3], 255)` panic fired for a
3-channel session (src/koi/encoder/stream.rs lines 58-64). -/
inductive EncErr where
  | assertAlpha
deriving DecidableEq, Repr

/-- `PixelEncoder::cache_pixel` (src/koi/encoder/stream.rs lines 138-142):
overwrite the cache slot selected by the hash of the new pixel. -/
def cache_pixel (st : PixelEncoder) (p : RgbaColor) : PixelEncoder :=
  { st with cache := st.cache.set (pixel_hash p) p }

/-- Increment `pixels_in`, as `encode_pixel` does before classifying. -/
def bumpIn (st : PixelEncoder) : PixelEncoder :=
  { st with pixels_in := st.pixels_in + 1 }

/-- The classification tail of `encode_pixel` (src/koi/encoder/stream.rs
lines 86-135): the rules tried once the index and alpha-only-difference
rules have not fired. -/
def encodeTail (st : PixelEncoder) (curr prev : RgbaColor) :
    Except EncErr (PixelEncoder × List Nat) :=
  if curr.a ≠ prev.a ∧ curr.a ≠ 255 then
    if curr.is_gray then
      .ok (cache_pixel (bumpIn st) curr, [OP_GRAY_ALPHA, curr.r, curr.a])
    else
      .ok (cache_pixel (bumpIn st) curr, [OP_RGBA, curr.r, curr.g, curr.b, curr.a])
  else
    match color_diff (curr.diff prev) with
    | some d => .ok (cache_pixel (bumpIn st) curr, [d])
    | none =>
      match luma_diff (curr.diff prev) with
      | some l => .ok (cache_pixel (bumpIn st) curr, l)
      | none =>
        if curr.is_gray then
          .ok (cache_pixel (bumpIn st) curr, [OP_GRAY, curr.r])
        else
          .ok (cache_pixel (bumpIn st) curr, [OP_RGB, curr.r, curr.g, curr.b])

/-- `PixelEncoder::encode_pixel` (src/koi/encoder/stream.rs lines 53-136):
classify one assembled pixel against the priority-ordered rules and emit its
bytes.  The Rust `if let Some(diff) = prev.alpha_diff(curr)` nested under the
RGB-equality test falls through to the remaining rules (`encodeTail`) when it
yields `None`; that control flow is rendered by matching on the guarded
option. -/
def encode_pixel (C : Nat) (st : PixelEncoder) (curr prev : RgbaColor) :
    Except EncErr (PixelEncoder × List Nat) :=
  if C < 4 ∧ curr.a ≠ 255 then .error .assertAlpha else
  if st.cache.getD (pixel_hash curr) ⟨0, 0, 0, 0⟩ = curr then
    .ok (cache_pixel (bumpIn st) curr, [OP_INDEX + pixel_hash curr])
  else
    match (if curr.r = prev.r ∧ curr.g = prev.g ∧ curr.b = prev.b ∧ curr.a ≠ prev.a
           then prev.alpha_diff curr else none) with
    | some d => .ok (cache_pixel (bumpIn st) curr, [d])
    | none => encodeTail st curr prev

/-- Pixel assembly in `PixelEncoder::write` (src/koi/encoder/stream.rs lines
164-165): start from `RgbaColor([0, 0, 0, 255])` and overwrite the first `C`
channels with the buffered raw bytes. -/
def assemblePixel (C : Nat) (buf : List Nat) : RgbaColor :=
  ⟨buf.getD 0 0, buf.getD 1 0, buf.getD 2 0, if 4 ≤ C then buf.getD 3 255 else 255⟩

/-- The per-byte loop of `PixelEncoder::write` (src/koi/encoder/stream.rs
lines 161-171): push each raw byte into the buffer; once `C` bytes are
buffered, assemble the pixel, encode it, update `prev_pixel` and clear the
buffer.  Returns the final state and the emitted bytes. -/
def writeLoop (C : Nat) : PixelEncoder → List Nat → Except EncErr (PixelEncoder × List Nat)
  | st, [] => .ok (st, [])
  | st, byte :: rest =>
    if (st.buffer ++ [byte]).length = C then
      match encode_pixel C { st with buffer := [] }
              (assemblePixel C (st.buffer ++ [byte])) st.prev_pixel with
      | .error e => .error e
      | .ok (st2, out) =>
        match writeLoop C { st2 with prev_pixel := assemblePixel C (st.buffer ++ [byte]) } rest with
        | .error e => .error e
        | .ok (st3, out') => .ok (st3, out ++ out')
    else
      writeLoop C { st with buffer := st.buffer ++ [byte] } rest

/-- One call of `<PixelEncoder as Write>::write` (src/koi/encoder/stream.rs
lines 157-178): run the byte loop, then append the end-of-image marker when
`pixels_in == pixels_count`. -/
def PixelEncoder.write (C : Nat) (st : PixelEncoder) (buf : List Nat) :
    Except EncErr (PixelEncoder × List Nat) :=
  match writeLoop C st buf with
  | .error e => .error e
  | .ok (st', out) =>
    if st'.pixels_in = st'.pixels_count then .ok (st', out ++ END_OF_IMAGE)
    else .ok (st', out)

/-- The whole encoder output for one image supplied in a single write call
from a fresh session. -/
def encodeStream (C pixels_count : Nat) (bytes : List Nat) : Except EncErr (List Nat) :=
  (PixelEncoder.write C (PixelEncoder.new pixels_count) bytes).map Prod.snd

/-- Encoder-side flush failure, from `<PixelEncoder as Write>::flush`
(src/koi/encoder/stream.rs lines 180-192). -/
inductive FlushErr where
  | bufferNotEmpty
deriving DecidableEq, Repr

/-- `<PixelEncoder as Write>::flush` (src/koi/encoder/stream.rs lines
180-192): the backend flush (pass-through here) succeeds, then a non-empty
pixel buffer is reported as the "buffer not empty" error. -/
def PixelEncoder.flush (st : PixelEncoder) : Except FlushErr Unit :=
  if st.buffer.isEmpty then .ok () else .error .bufferNotEmpty

/-- Decoder session state, from `PixelDecoder` in src/src/decoder/stream.rs.
The `Reader` backend is modelled as the pass-through strategy over a byte
list. -/
structure PixelDecoder where
  cache : List RgbaColor
  last_px : RgbaColor
  pixels_in : Nat
  pixels_count : Nat
deriving DecidableEq, Repr

/-- `PixelDecoder::new` (src/src/decoder/stream.rs lines 16-24): zeroed
cache, `last_px = RgbaColor([0, 0, 0, 255])`. -/
def PixelDecoder.new (pixels_count : Nat) : PixelDecoder :=
  ⟨List.replicate CACHE_SIZE ⟨0, 0, 0, 0⟩, ⟨0, 0, 0, 255⟩, 0, pixels_count⟩

/-- Decoder failures: `eof` is the I/O error `Reader::read` raises when the
stream ends before the requested bytes; `invalidEnd` is the "Invalid end of
image" data error; `panicSlice` models the Rust panic of
`copy_from_slice` into a caller buffer that is too short. -/
inductive DecErr where
  | eof
  | invalidEnd
  | panicSlice
deriving DecidableEq, Repr

/-- Modelled from the spec (reader.rs not in src): `Reader::read::<N>` reads
exactly `n` bytes from the stream or propagates the end-of-stream I/O
failure.  Returns the bytes and the remaining stream. -/
def readN (n : Nat) (s : List Nat) : Except DecErr (List Nat × List Nat) :=
  if n ≤ s.length then .ok (s.take n, s.drop n) else .error .eof

/-- The four channel bytes of a pixel, in order. -/
def rgbaBytes (p : RgbaColor) : List Nat := [p.r, p.g, p.b, p.a]

/-- Result of one successful `read` call: the bytes copied into the caller's
buffer, the returned count `n`, the new decoder state and the remaining
stream. -/
structure ReadOk where
  produced : List Nat
  n : Nat
  st : PixelDecoder
  rest : List Nat
deriving DecidableEq, Repr

/-- The non-index arms of the decoder's dispatch on the leading byte `b1`
(src/src/decoder/stream.rs lines 61-81): produce the reconstructed pixel,
the extra payload bytes consumed, and the remaining stream.  The arms are
tried in the source order; the final catch-all leaves the pre-initialized
pixel (0,0,0,255) untouched. -/
def dispatchPixel (C : Nat) (st : PixelDecoder) (b1 : Nat) (s1 : List Nat) :
    Except DecErr (RgbaColor × Nat × List Nat) :=
  if b1 = OP_RGB then
    match readN 3 s1 with
    | .error e => .error e
    | .ok (p3, s2) => .ok (⟨p3.getD 0 0, p3.getD 1 0, p3.getD 2 0, 255⟩, 3, s2)
  else if b1 = OP_RGBA ∧ 4 ≤ C then
    match readN 4 s1 with
    | .error e => .error e
    | .ok (p4, s2) => .ok (⟨p4.getD 0 0, p4.getD 1 0, p4.getD 2 0, p4.getD 3 0⟩, 4, s2)
  else if OP_RUNLENGTH ≤ b1 ∧ b1 ≤ OP_RUNLENGTH_END then
    .ok (⟨0, 0, 0, 255⟩, 0, s1)
  else if OP_DIFF ≤ b1 ∧ b1 ≤ OP_DIFF_END then
    .ok (st.last_px.apply_diff b1, 0, s1)
  else if OP_LUMA ≤ b1 ∧ b1 ≤ OP_LUMA_END then
    match readN 1 s1 with
    | .error e => .error e
    | .ok (b2s, s2) => .ok (st.last_px.apply_luma b1 (b2s.getD 0 0), 1, s2)
  else
    .ok (⟨0, 0, 0, 255⟩, 0, s1)

/-- `<PixelDecoder as Read>::read` (src/src/decoder/stream.rs lines 37-89):
read one leading byte, check the end-of-image condition, then either the
index arm or the `dispatchPixel` arms followed by the shared pixel commit.
`bufLen` is the length of the caller's destination buffer; the slice copies
`buf[..C]` (index arm) and `buf[..4]` (all other arms) panic — constructor
`panicSlice` — when the buffer is shorter. -/
def PixelDecoder.read (C : Nat) (st : PixelDecoder) (stream : List Nat) (bufLen : Nat) :
    Except DecErr ReadOk :=
  match readN 1 stream with
  | .error e => .error e
  | .ok (b1s, s1) =>
    if st.pixels_count ≤ st.pixels_in then
      match readN 8 s1 with
      | .error e => .error e
      | .ok (padding, s2) =>
        if padding = END_OF_IMAGE then .ok ⟨[], 0, st, s2⟩
        else .error .invalidEnd
    else
      if OP_INDEX ≤ b1s.getD 0 0 ∧ b1s.getD 0 0 ≤ OP_INDEX_END then
        if bufLen < C then .error .panicSlice else
        .ok ⟨(rgbaBytes (st.cache.getD (b1s.getD 0 0) ⟨0, 0, 0, 0⟩)).take C, 1,
             { st with last_px := st.cache.getD (b1s.getD 0 0) ⟨0, 0, 0, 0⟩,
                       pixels_in := st.pixels_in + 1 }, s1⟩
      else
        match dispatchPixel C st (b1s.getD 0 0) s1 with
        | .error e => .error e
        | .ok (pixel, extra, s2) =>
          if bufLen < 4 then .error .panicSlice else
          .ok ⟨rgbaBytes pixel, 1 + extra,
               { st with cache := st.cache.set (pixel_hash pixel) pixel,
                         last_px := pixel,
                         pixels_in := st.pixels_in + (1 + extra) }, s2⟩

/-- Decode driver: call `read` with a 4-byte caller buffer until it reports
end of stream (`Ok(0)`), collecting the bytes each call copies into the
buffer.  Fuel bounds the recursion; every pixel read consumes at least one
stream byte, so `stream.length + 1` fuel always suffices. -/
def decodeLoop (C : Nat) : Nat → PixelDecoder → List Nat → Except DecErr (List Nat)
  | 0, _, _ => .error .eof
  | fuel + 1, st, stream =>
    match st.read C stream 4 with
    | .error e => .error e
    | .ok r =>
      if r.n = 0 then .ok []
      else
        match decodeLoop C fuel r.st r.rest with
        | .error e => .error e
        | .ok out => .ok (r.produced ++ out)

/-- Decode a whole stream from a fresh decoder session. -/
def decode (C pixels_count : Nat) (stream : List Nat) : Except DecErr (List Nat) :=
  decodeLoop C (stream.length + 1) (PixelDecoder.new pixels_count) stream

/-- Encode then decode, the composition the round-trip property is about;
`none` when either side fails. -/
def roundTrip (C pixels_count : Nat) (bytes : List Nat) : Option (List Nat) :=
  (encodeStream C pixels_count bytes).toOption.bind fun s =>
    (decode C pixels_count s).toOption

/-- C1.  The round-trip property `decode(encode(pixels)) == pixels` fails on
the code: for the single 4-channel pixel (10,10,10,255) the encoder emits the
gray-literal op (0xFC, 10) followed by the terminator, but the decoder's
dispatch has no arm for the gray op, so its catch-all arm silently yields
(0,0,0,255); the gray payload byte is then swallowed as the byte the decoder
consumes before its terminator check, the terminator comparison passes, and
decoding "succeeds" with output different from the input. -/
theorem c1_roundtrip_fails :
    encodeStream 4 1 [10, 10, 10, 255] = .ok ([OP_GRAY, 10] ++ END_OF_IMAGE) ∧
    decode 4 1 ([OP_GRAY, 10] ++ END_OF_IMAGE) = .ok [0, 0, 0, 255] ∧
    roundTrip 4 1 [10, 10, 10, 255] = some [0, 0, 0, 255] ∧
    roundTrip 4 1 [10, 10, 10, 255] ≠ some [10, 10, 10, 255] := by decide

/-- C2.  Cache parity fails on the code: after both sides process the single
4-channel pixel (10,10,10,255), the encoder's cache holds (10,10,10,255) in
slot `pixel_hash (10,10,10,255) = 11`, while the decoder — whose dispatch has
no arm for the gray op the encoder emitted — caches (0,0,0,255) in slot 53,
so the two 64-slot caches are not bit-identical. -/
theorem c2_cache_divergence :
    encodeStream 4 1 [10, 10, 10, 255] = .ok ([OP_GRAY, 10] ++ END_OF_IMAGE) ∧
    (PixelEncoder.write 4 (PixelEncoder.new 1) [10, 10, 10, 255]).toOption.map
        (fun p => p.1.cache) ≠
      ((PixelDecoder.new 1).read 4 ([OP_GRAY, 10] ++ END_OF_IMAGE) 4).toOption.map
        (fun r => r.st.cache) ∧
    (PixelEncoder.write 4 (PixelEncoder.new 1) [10, 10, 10, 255]).toOption.map
        (fun p => p.1.cache.getD 11 ⟨0, 0, 0, 0⟩) = some ⟨10, 10, 10, 255⟩ ∧
    ((PixelDecoder.new 1).read 4 ([OP_GRAY, 10] ++ END_OF_IMAGE) 4).toOption.map
        (fun r => r.st.cache.getD 11 ⟨0, 0, 0, 0⟩) = some ⟨0, 0, 0, 0⟩ := by decide

/-- C3.  The claim that both sessions start their previous-pixel state at
opaque black fails on the encoder: `PixelEncoder::new` initializes
`prev_pixel` to the transparent value (0,0,0,0), while `PixelDecoder::new`
does use (0,0,0,255) as the claim and the spec state. -/
theorem c3_prev_pixel_init :
    (PixelEncoder.new 5).prev_pixel = ⟨0, 0, 0, 0⟩ ∧
    (PixelEncoder.new 5).prev_pixel ≠ ⟨0, 0, 0, 255⟩ ∧
    (PixelDecoder.new 5).last_px = ⟨0, 0, 0, 255⟩ := by decide

/-- C4.  The terminator-failure claim fails on the code in two ways.  First,
the decoder consumes one byte before its end-of-image check and then reads
eight more, so an 8-byte terminator — corrupted or not — can never satisfy
the final read: for the one-pixel coarse-diff stream with a corrupted
terminator (and likewise with the intact terminator) the decoder fails with
the end-of-stream I/O error, not the invalid-end-marker data error.  Second,
`pixels_in` accumulates consumed stream bytes rather than decoded-pixel
count, so for a two-pixel stream whose first pixel is a 4-byte RGB literal
the terminator branch is entered, and the invalid-end error raised, on the
read after only one of the two pixels has been decoded. -/
theorem c4_terminator_check :
    encodeStream 4 1 [1, 1, 1, 0] = .ok ([0x7f] ++ END_OF_IMAGE) ∧
    decode 4 1 [0x7f, 0, 0, 0, 0, 0, 0, 0, 0] = .error .eof ∧
    decode 4 1 ([0x7f] ++ END_OF_IMAGE) = .error .eof ∧
    encodeStream 4 2 [100, 99, 98, 255, 1, 2, 3, 255] =
      .ok ([OP_RGB, 100, 99, 98, OP_RGB, 1, 2, 3] ++ END_OF_IMAGE) ∧
    decode 4 2 [OP_RGB, 100, 99, 98, OP_RGB, 1, 2, 3, 0, 0, 0, 0, 0, 0, 0, 0] =
      .error .invalidEnd := by decide

/-- C5.  For `pixels_count = 0` the encoder half of the claim holds — the
output is exactly the 8-byte end-of-image marker — but the decoder half
fails: the first read consumes one byte before the end-of-image check and
then requires eight more, so on the 8-byte terminator stream it fails with
the end-of-stream I/O error instead of returning `Ok(0)`. -/
theorem c5_empty_image :
    encodeStream 4 0 [] = .ok END_OF_IMAGE ∧
    END_OF_IMAGE.length = 8 ∧
    (PixelDecoder.new 0).read 4 END_OF_IMAGE 4 = .error .eof := by decide

/-- The eight encoding rules, in the spec's §4.2 priority order. -/
inductive EncRule where
  | index
  | alphaDiff
  | grayAlpha
  | rgbaLit
  | coarseDiff
  | lumaDiff
  | grayLit
  | rgbLit
deriving DecidableEq, Repr

/-- Spec-side classification, written from the spec's §4.2 words (not from
the source): the priority order after the index and alpha-only rules —
gray-alpha literal when alpha changed (and is not 255) and the pixel is
gray; full RGBA literal when alpha changed (and is not 255) and the pixel is
not gray; coarse colour difference when representable; luma difference when
representable; gray literal when alpha is unchanged and the pixel is gray
(rule 7 states "alpha is unchanged, and R=G=B"); RGB literal as the
fallback — picking the first that applies. -/
def specTailRule (curr prev : RgbaColor) : EncRule :=
  if curr.a ≠ prev.a ∧ curr.a ≠ 255 ∧ curr.is_gray then .grayAlpha
  else if curr.a ≠ prev.a ∧ curr.a ≠ 255 then .rgbaLit
  else if (color_diff (curr.diff prev)).isSome then .coarseDiff
  else if (luma_diff (curr.diff prev)).isSome then .lumaDiff
  else if curr.a = prev.a ∧ curr.is_gray then .grayLit
  else .rgbLit

/-- Spec-side classification head: index on an exact cache hit, then the
alpha-only difference, then the remaining spec rules of `specTailRule`. -/
def specRule (st : PixelEncoder) (curr prev : RgbaColor) : EncRule :=
  if st.cache.getD (pixel_hash curr) ⟨0, 0, 0, 0⟩ = curr then .index
  else if curr.r = prev.r ∧ curr.g = prev.g ∧ curr.b = prev.b ∧ curr.a ≠ prev.a ∧
          (prev.alpha_diff curr).isSome then .alphaDiff
  else specTailRule curr prev

/-- The rule order the code actually implements after the index and
alpha-only rules.  It differs from `specTailRule` in exactly one place: the
source's gray-literal branch (src/koi/encoder/stream.rs lines 120-129) tests
only `is_gray` and omits the spec's "alpha is unchanged" condition, so a
gray pixel whose alpha changed to 255 is gray-encoded instead of falling to
the RGB literal. -/
def implTailRule (curr prev : RgbaColor) : EncRule :=
  if curr.a ≠ prev.a ∧ curr.a ≠ 255 ∧ curr.is_gray then .grayAlpha
  else if curr.a ≠ prev.a ∧ curr.a ≠ 255 then .rgbaLit
  else if (color_diff (curr.diff prev)).isSome then .coarseDiff
  else if (luma_diff (curr.diff prev)).isSome then .lumaDiff
  else if curr.is_gray then .grayLit
  else .rgbLit

/-- The code's classification head: index on an exact cache hit, then the
alpha-only difference, then the remaining code rules of `implTailRule`. -/
def implRule (st : PixelEncoder) (curr prev : RgbaColor) : EncRule :=
  if st.cache.getD (pixel_hash curr) ⟨0, 0, 0, 0⟩ = curr then .index
  else if curr.r = prev.r ∧ curr.g = prev.g ∧ curr.b = prev.b ∧ curr.a ≠ prev.a ∧
          (prev.alpha_diff curr).isSome then .alphaDiff
  else implTailRule curr prev

/-- The bytes each rule emits for a pixel. -/
def ruleBytes (curr prev : RgbaColor) : EncRule → List Nat
  | .index => [OP_INDEX + pixel_hash curr]
  | .alphaDiff => [(prev.alpha_diff curr).getD 0]
  | .grayAlpha => [OP_GRAY_ALPHA, curr.r, curr.a]
  | .rgbaLit => [OP_RGBA, curr.r, curr.g, curr.b, curr.a]
  | .coarseDiff => [(color_diff (curr.diff prev)).getD 0]
  | .lumaDiff => (luma_diff (curr.diff prev)).getD []
  | .grayLit => [OP_GRAY, curr.r]
  | .rgbLit => [OP_RGB, curr.r, curr.g, curr.b]

/-- The classification tail emits exactly the bytes of the first applicable
rule in the code's tail priority order. -/
theorem encodeTail_eq (st : PixelEncoder) (curr prev : RgbaColor) :
    encodeTail st curr prev =
      .ok (cache_pixel (bumpIn st) curr,
           ruleBytes curr prev (implTailRule curr prev)) := by
  unfold encodeTail implTailRule
  by_cases hQ : curr.a ≠ prev.a ∧ curr.a ≠ 255
  · by_cases hG : curr.is_gray = true
    · rw [if_pos hQ, if_pos hG, if_pos ⟨hQ.1, hQ.2, hG⟩]
      simp [ruleBytes]
    · have h1 : ¬(curr.a ≠ prev.a ∧ curr.a ≠ 255 ∧ curr.is_gray = true) :=
        fun hc => hG hc.2.2
      rw [if_pos hQ, if_neg hG, if_neg h1, if_pos hQ]
      simp [ruleBytes]
  · have h1 : ¬(curr.a ≠ prev.a ∧ curr.a ≠ 255 ∧ curr.is_gray = true) :=
      fun hc => hQ ⟨hc.1, hc.2.1⟩
    rw [if_neg hQ, if_neg h1, if_neg hQ]
    cases hC : color_diff (curr.diff prev) with
    | some d => simp [hC, ruleBytes]
    | none =>
      cases hL : luma_diff (curr.diff prev) with
      | some l => simp [hC, hL, ruleBytes]
      | none =>
        by_cases hG : curr.is_gray = true
        · simp [hC, hL, hG, ruleBytes]
        · simp [hC, hL, hG, ruleBytes]

/-- C6 counterexample.  The claim that the encoder always emits the first
applicable rule of the spec's §4.2 order fails at the gray literal: for the
gray pixel (10,10,10,255) after (0,0,0,0) — a reachable state, since the
encoder's initial previous pixel is exactly (0,0,0,0) — no earlier rule
applies and the spec's rule 7 requires alpha unchanged (255 ≠ 0), so the
spec's first applicable rule is the RGB literal [OP_RGB,10,10,10]; the code
tests only grayness and emits the gray literal [OP_GRAY,10] instead. -/
theorem c6_priority_counterexample :
    encode_pixel 4 (PixelEncoder.new 1) ⟨10, 10, 10, 255⟩ ⟨0, 0, 0, 0⟩ =
      .ok (cache_pixel (bumpIn (PixelEncoder.new 1)) ⟨10, 10, 10, 255⟩,
           [OP_GRAY, 10]) ∧
    specRule (PixelEncoder.new 1) ⟨10, 10, 10, 255⟩ ⟨0, 0, 0, 0⟩ = .rgbLit ∧
    ruleBytes ⟨10, 10, 10, 255⟩ ⟨0, 0, 0, 0⟩
      (specRule (PixelEncoder.new 1) ⟨10, 10, 10, 255⟩ ⟨0, 0, 0, 0⟩) =
      [OP_RGB, 10, 10, 10] ∧
    ([OP_GRAY, 10] : List Nat) ≠ [OP_RGB, 10, 10, 10] := by decide

/-- C6 (amended).  Priority determinism against the code's rule order:
whenever the alpha assertion passes (all 4-channel sessions, and 3-channel
sessions with the padded alpha 255), the encoder's emitted bytes are exactly
those of the first applicable rule in the order index, alpha-only
difference, gray-alpha literal / full RGBA literal, coarse colour
difference, luma difference, gray literal, RGB literal — where, unlike the
spec's rule 7, the gray literal does not require alpha to be unchanged (the
one divergence, exhibited by the counterexample) — and the state update is
the uniform cache overwrite.  Re-running the encoder on the same input is
deterministic because the embedding is a pure function, restated by the
second conjunct. -/
theorem c6_priority_order_amended (C : Nat) (st : PixelEncoder) (curr prev : RgbaColor)
    (h : C < 4 → curr.a = 255) :
    encode_pixel C st curr prev =
      .ok (cache_pixel (bumpIn st) curr,
           ruleBytes curr prev (implRule st curr prev)) ∧
    encode_pixel C st curr prev = encode_pixel C st curr prev := by
  refine ⟨?_, rfl⟩
  have hA : ¬(C < 4 ∧ curr.a ≠ 255) := fun hc => hc.2 (h hc.1)
  unfold encode_pixel implRule
  rw [if_neg hA]
  by_cases h1 : st.cache.getD (pixel_hash curr) ⟨0, 0, 0, 0⟩ = curr
  · rw [if_pos h1, if_pos h1]
    simp [ruleBytes]
  · rw [if_neg h1, if_neg h1]
    by_cases h2 : curr.r = prev.r ∧ curr.g = prev.g ∧ curr.b = prev.b ∧ curr.a ≠ prev.a
    · rw [if_pos h2]
      cases hD : prev.alpha_diff curr with
      | some d =>
        have h2' : curr.r = prev.r ∧ curr.g = prev.g ∧ curr.b = prev.b ∧
            curr.a ≠ prev.a ∧ (some d : Option Nat).isSome = true :=
          ⟨h2.1, h2.2.1, h2.2.2.1, h2.2.2.2, rfl⟩
        rw [if_pos h2']
        simp [ruleBytes, hD]
      | none =>
        have h2' : ¬(curr.r = prev.r ∧ curr.g = prev.g ∧ curr.b = prev.b ∧
            curr.a ≠ prev.a ∧ (none : Option Nat).isSome = true) := by
          intro hc
          simpa using hc.2.2.2.2
        rw [if_neg h2']
        exact encodeTail_eq st curr prev
    · have h2' : ¬(curr.r = prev.r ∧ curr.g = prev.g ∧ curr.b = prev.b ∧
          curr.a ≠ prev.a ∧ (prev.alpha_diff curr).isSome = true) :=
        fun hc => h2 ⟨hc.1, hc.2.1, hc.2.2.1, hc.2.2.2.1⟩
      rw [if_neg h2, if_neg h2']
      exact encodeTail_eq st curr prev

/-- Witness for C6 (amended): the coarse-diff pixel (1,2,3,255) after
(0,0,0,255) in a 4-channel session, the assertion hypothesis discharged
concretely. -/
theorem c6_priority_order_amended_witness :
    encode_pixel 4 (PixelEncoder.new 2) ⟨1, 2, 3, 255⟩ ⟨0, 0, 0, 255⟩ =
      .ok (cache_pixel (bumpIn (PixelEncoder.new 2)) ⟨1, 2, 3, 255⟩,
           ruleBytes ⟨1, 2, 3, 255⟩ ⟨0, 0, 0, 255⟩
             (implRule (PixelEncoder.new 2) ⟨1, 2, 3, 255⟩ ⟨0, 0, 0, 255⟩)) :=
  (c6_priority_order_amended 4 (PixelEncoder.new 2) ⟨1, 2, 3, 255⟩ ⟨0, 0, 0, 255⟩
    (by decide)).1

/-- Every successful `encode_pixel` call returns the uniform state update:
the cache slot of the new pixel overwritten and `pixels_in` bumped; in
particular the raw-byte buffer is untouched. -/
theorem encode_pixel_ok_state (C : Nat) (st : PixelEncoder) (curr prev : RgbaColor)
    (p : PixelEncoder × List Nat) (hp : encode_pixel C st curr prev = .ok p) :
    p.1 = cache_pixel (bumpIn st) curr := by
  unfold encode_pixel encodeTail at hp
  by_cases h0 : C < 4 ∧ curr.a ≠ 255
  · rw [if_pos h0] at hp
    cases hp
  · rw [if_neg h0] at hp
    by_cases h1 : st.cache.getD (pixel_hash curr) ⟨0, 0, 0, 0⟩ = curr
    · rw [if_pos h1] at hp
      cases hp
      rfl
    · rw [if_neg h1] at hp
      cases hD : (if curr.r = prev.r ∧ curr.g = prev.g ∧ curr.b = prev.b ∧ curr.a ≠ prev.a
          then prev.alpha_diff curr else none) with
      | some d =>
        rw [hD] at hp
        cases hp
        rfl
      | none =>
        rw [hD] at hp
        by_cases h2 : curr.a ≠ prev.a ∧ curr.a ≠ 255
        · rw [if_pos h2] at hp
          by_cases hG : curr.is_gray = true
          · rw [if_pos hG] at hp
            cases hp
            rfl
          · rw [if_neg hG] at hp
            cases hp
            rfl
        · rw [if_neg h2] at hp
          cases hc : color_diff (curr.diff prev) with
          | some d =>
            rw [hc] at hp
            cases hp
            rfl
          | none =>
            rw [hc] at hp
            cases hl : luma_diff (curr.diff prev) with
            | some l =>
              rw [hl] at hp
              cases hp
              rfl
            | none =>
              rw [hl] at hp
              by_cases hG : curr.is_gray = true
              · rw [if_pos hG] at hp
                cases hp
                rfl
              · rw [if_neg hG] at hp
                cases hp
                rfl

/-- Running the write loop from a buffer shorter than a pixel leaves a
buffer holding the residue modulo `C` of the bytes seen so far. -/
theorem writeLoop_buffer (C : Nat) (hC : 0 < C) (bytes : List Nat) :
    ∀ st st' out, st.buffer.length < C →
      writeLoop C st bytes = .ok (st', out) →
      st'.buffer.length < C ∧
      st'.buffer.length % C = (st.buffer.length + bytes.length) % C := by
  induction bytes with
  | nil =>
    intro st st' out hlt hw
    unfold writeLoop at hw
    cases hw
    exact ⟨hlt, by simp⟩
  | cons b rest ih =>
    intro st st' out hlt hw
    unfold writeLoop at hw
    by_cases hlen : (st.buffer ++ [b]).length = C
    · rw [if_pos hlen] at hw
      split at hw
      · cases hw
      · rename_i st2 out1 hE
        split at hw
        · cases hw
        · rename_i st3 out2 hW2
          have hst3 : st3 = st' := congrArg Prod.fst (Except.ok.inj hw)
          subst hst3
          have hbuf2 : st2.buffer = [] := by
            have h := encode_pixel_ok_state C { st with buffer := [] }
              (assemblePixel C (st.buffer ++ [b])) st.prev_pixel (st2, out1) hE
            rw [show st2 = (st2, out1).1 from rfl, h]
            rfl
          have ih' := ih { st2 with prev_pixel := assemblePixel C (st.buffer ++ [b]) }
            st3 out2 (by simpa [hbuf2] using hC) hW2
          refine ⟨ih'.1, ?_⟩
          have h1 : st.buffer.length + 1 = C := by simpa using hlen
          have h2 : st3.buffer.length % C = rest.length % C := by
            simpa [hbuf2] using ih'.2
          calc st3.buffer.length % C = rest.length % C := h2
            _ = (rest.length + C) % C := (Nat.add_mod_right _ _).symm
            _ = (st.buffer.length + (b :: rest).length) % C := by
                rw [show st.buffer.length + (b :: rest).length = rest.length + C from by
                  simp
                  omega]
    · rw [if_neg hlen] at hw
      have hlt1 : st.buffer.length + 1 < C := by
        simp at hlen
        omega
      have ih' := ih { st with buffer := st.buffer ++ [b] } st' out (by simpa using hlt1) hw
      refine ⟨ih'.1, ?_⟩
      have h2 := ih'.2
      simp only [List.length_append, List.length_singleton, List.length_cons] at h2 ⊢
      rw [show st.buffer.length + (rest.length + 1) =
        st.buffer.length + 1 + rest.length from by omega]
      exact h2

/-- C7.  Flush contract: after writing any raw byte sequence into a fresh
encoder session (that did not fail), `flush` fails with the buffer-not-empty
error exactly when the byte count is not a multiple of the channel count —
that is, exactly when a partial pixel remains buffered — and succeeds when
the buffer is empty. -/
theorem c7_flush_iff_partial (C n : Nat) (bytes : List Nat) (hC : 0 < C)
    (hok : (PixelEncoder.write C (PixelEncoder.new n) bytes).toOption.isSome = true) :
    (PixelEncoder.write C (PixelEncoder.new n) bytes).map (fun p => p.1.flush) =
      .ok (if bytes.length % C = 0 then Except.ok () else .error .bufferNotEmpty) := by
  cases hw : PixelEncoder.write C (PixelEncoder.new n) bytes with
  | error e => rw [hw] at hok; simp [Except.toOption] at hok
  | ok p =>
    obtain ⟨st, out⟩ := p
    unfold PixelEncoder.write at hw
    split at hw
    · cases hw
    · rename_i st0 out0 hwl
      have hst : st0 = st := by
        by_cases hfin : st0.pixels_in = st0.pixels_count
        · rw [if_pos hfin] at hw
          cases hw
          rfl
        · rw [if_neg hfin] at hw
          cases hw
          rfl
      subst hst
      have hbuf := writeLoop_buffer C hC bytes (PixelEncoder.new n) st0 out0
        (by simpa [PixelEncoder.new] using hC) hwl
      have hlen0 : st0.buffer.length = bytes.length % C := by
        have h1 := hbuf.1
        have h2 := hbuf.2
        rw [Nat.mod_eq_of_lt h1] at h2
        simpa [PixelEncoder.new] using h2
      simp only [Except.map]
      unfold PixelEncoder.flush
      by_cases hz : bytes.length % C = 0
      · have hb : st0.buffer = [] := List.length_eq_zero.mp (by omega)
        simp [hb, hz]
      · have hb2 : st0.buffer.isEmpty = false := by
          cases hbq : st0.buffer with
          | nil =>
            rw [hbq] at hlen0
            simp at hlen0
            exact absurd hlen0.symm hz
          | cons x xs => rfl
        simp [hb2, hz]

/-- Witness for C7: three channels, four raw bytes — one full pixel plus a
dangling byte — so flush reports the buffer-not-empty contract violation. -/
theorem c7_flush_iff_partial_witness :
    0 < 3 ∧
    (PixelEncoder.write 3 (PixelEncoder.new 1) [5, 5, 5, 7]).map (fun p => p.1.flush) =
      .ok (if ([5, 5, 5, 7] : List Nat).length % 3 = 0 then Except.ok ()
           else .error .bufferNotEmpty) :=
  ⟨by decide, c7_flush_iff_partial 3 1 [5, 5, 5, 7] (by decide) (by decide)⟩

/-- A pixel's alpha channel is the zero default or the opaque 255. -/
def alphaOK (p : RgbaColor) : Prop := p.a = 0 ∨ p.a = 255

instance (p : RgbaColor) : Decidable (alphaOK p) := by
  unfold alphaOK
  infer_instance

/-- Decoder alpha invariant for 3-channel sessions: the previous pixel and
every cache slot carry alpha 0 (the never-written default) or 255. -/
def decInv (st : PixelDecoder) : Prop :=
  alphaOK st.last_px ∧ ∀ p ∈ st.cache, alphaOK p

instance (st : PixelDecoder) : Decidable (decInv st) := by
  unfold decInv
  infer_instance

/-- `decInv` holds of the state a successful result carries. -/
def invOpt (o : Option PixelDecoder) : Prop := ∀ s, o = some s → decInv s

/-- Reading a fixed-size list at any index yields an element of the list or
the default, so `alphaOK` membership bounds transfer to `getD`. -/
theorem alphaOK_getD (l : List RgbaColor) (h : ∀ p ∈ l, alphaOK p) (i : Nat) :
    alphaOK (l.getD i ⟨0, 0, 0, 0⟩) := by
  rw [List.getD_eq_getElem?_getD]
  cases hg : l[i]? with
  | none => exact Or.inl rfl
  | some p => exact h p (List.getElem?_mem hg)

/-- C8 counterexample.  In a 3-channel session the claim "every decoded
pixel's alpha equals 255" fails: the index op 0x00 on a fresh decoder reads
the never-written cache slot 0 and reconstructs the zero pixel, whose alpha
is 0, as the session's new previous pixel. -/
theorem c8_alpha_counterexample :
    ((PixelDecoder.new 1).read 3 [0] 3).toOption.map (fun r => r.st.last_px.a) =
      some 0 ∧
    ((PixelDecoder.new 1).read 3 [0] 3).toOption.map (fun r => r.st.last_px.a) ≠
      some 255 := by decide

/-- C8 (amended).  For 3-channel sessions: every pixel the encoder assembles
from raw input has its alpha padded to exactly 255, and every pixel state
the decoder reconstructs has alpha 255 or 0 — alpha 0 arising only from
index reads of never-written (zero-initialized) cache slots and their
propagation through difference ops, as the counterexample exhibits. -/
theorem c8_alpha_amended :
    (∀ buf : List Nat, (assemblePixel 3 buf).a = 255) ∧
    ∀ (st : PixelDecoder) (stream : List Nat) (bufLen : Nat), decInv st →
      invOpt ((PixelDecoder.read 3 st stream bufLen).toOption.map ReadOk.st) := by
  constructor
  · intro buf
    rfl
  · intro st stream bufLen hinv
    unfold invOpt
    intro s hs
    cases hr : PixelDecoder.read 3 st stream bufLen with
    | error e =>
      rw [hr] at hs
      simp [Except.toOption] at hs
    | ok r =>
      rw [hr] at hs
      simp [Except.toOption] at hs
      subst hs
      unfold PixelDecoder.read at hr
      split at hr
      · cases hr
      · rename_i b1s s1 hr1
        by_cases hfin : st.pixels_count ≤ st.pixels_in
        · rw [if_pos hfin] at hr
          split at hr
          · cases hr
          · rename_i padding s2 hr8
            by_cases hpad : padding = END_OF_IMAGE
            · rw [if_pos hpad] at hr
              cases hr
              exact hinv
            · rw [if_neg hpad] at hr
              cases hr
        · rw [if_neg hfin] at hr
          by_cases hidx : OP_INDEX ≤ b1s.getD 0 0 ∧ b1s.getD 0 0 ≤ OP_INDEX_END
          · rw [if_pos hidx] at hr
            by_cases hbl : bufLen < 3
            · rw [if_pos hbl] at hr
              cases hr
            · rw [if_neg hbl] at hr
              cases hr
              exact ⟨alphaOK_getD st.cache hinv.2 _, hinv.2⟩
          · rw [if_neg hidx] at hr
            split at hr
            · cases hr
            · rename_i pixel extra s2 hstep
              by_cases hbl : bufLen < 4
              · rw [if_pos hbl] at hr
                cases hr
              · rw [if_neg hbl] at hr
                cases hr
                have hpx : alphaOK pixel := by
                  unfold dispatchPixel at hstep
                  by_cases hR : b1s.getD 0 0 = OP_RGB
                  · rw [if_pos hR] at hstep
                    split at hstep
                    · cases hstep
                    · cases hstep
                      exact Or.inr rfl
                  · rw [if_neg hR] at hstep
                    by_cases hRA : b1s.getD 0 0 = OP_RGBA ∧ 4 ≤ 3
                    · exact absurd hRA.2 (by decide)
                    · rw [if_neg hRA] at hstep
                      by_cases hRL : OP_RUNLENGTH ≤ b1s.getD 0 0 ∧
                          b1s.getD 0 0 ≤ OP_RUNLENGTH_END
                      · rw [if_pos hRL] at hstep
                        cases hstep
                        exact Or.inr rfl
                      · rw [if_neg hRL] at hstep
                        by_cases hD : OP_DIFF ≤ b1s.getD 0 0 ∧
                            b1s.getD 0 0 ≤ OP_DIFF_END
                        · rw [if_pos hD] at hstep
                          cases hstep
                          exact hinv.1
                        · rw [if_neg hD] at hstep
                          by_cases hL : OP_LUMA ≤ b1s.getD 0 0 ∧
                              b1s.getD 0 0 ≤ OP_LUMA_END
                          · rw [if_pos hL] at hstep
                            split at hstep
                            · cases hstep
                            · cases hstep
                              exact hinv.1
                          · rw [if_neg hL] at hstep
                            cases hstep
                            exact Or.inr rfl
                refine ⟨hpx, ?_⟩
                intro p hp
                rcases List.mem_or_eq_of_mem_set hp with h | h
                · exact hinv.2 p h
                · rw [h]
                  exact hpx

/-- Witness for C8 (amended): a concrete coarse-diff read on a fresh
3-channel decoder, the invariant hypothesis discharged by evaluation. -/
theorem c8_alpha_amended_witness :
    (assemblePixel 3 [7, 7, 7]).a = 255 ∧
    decInv (PixelDecoder.new 1) ∧
    invOpt (((PixelDecoder.new 1).read 3 [64] 4).toOption.map ReadOk.st) :=
  ⟨c8_alpha_amended.1 [7, 7, 7], by decide,
   c8_alpha_amended.2 (PixelDecoder.new 1) [64] 4 (by decide)⟩

/-- With at least four payload bytes available, no dispatch arm can hit the
end of the stream, so the dispatch never fails. -/
theorem dispatchPixel_ok (C : Nat) (st : PixelDecoder) (b1 : Nat) (s1 : List Nat)
    (hlen : 4 ≤ s1.length) (e : DecErr) :
    dispatchPixel C st b1 s1 ≠ .error e := by
  unfold dispatchPixel
  by_cases hR : b1 = OP_RGB
  · rw [if_pos hR,
      show readN 3 s1 = .ok (s1.take 3, s1.drop 3) from by
        unfold readN
        rw [if_pos (by omega)]]
    intro h
    cases h
  · rw [if_neg hR]
    by_cases hRA : b1 = OP_RGBA ∧ 4 ≤ C
    · rw [if_pos hRA,
        show readN 4 s1 = .ok (s1.take 4, s1.drop 4) from by
          unfold readN
          rw [if_pos (by omega)]]
      intro h
      cases h
    · rw [if_neg hRA]
      by_cases hRL : OP_RUNLENGTH ≤ b1 ∧ b1 ≤ OP_RUNLENGTH_END
      · rw [if_pos hRL]
        intro h
        cases h
      · rw [if_neg hRL]
        by_cases hD : OP_DIFF ≤ b1 ∧ b1 ≤ OP_DIFF_END
        · rw [if_pos hD]
          intro h
          cases h
        · rw [if_neg hD]
          by_cases hL : OP_LUMA ≤ b1 ∧ b1 ≤ OP_LUMA_END
          · rw [if_pos hL,
              show readN 1 s1 = .ok (s1.take 1, s1.drop 1) from by
                unfold readN
                rw [if_pos (by omega)]]
            intro h
            cases h
          · rw [if_neg hL]
            intro h
            cases h

/-- C9.  The decoder's `read` is partial in the caller's buffer length: for
any active session (pixels remain), any leading byte outside the index range
and any destination buffer shorter than 4 bytes, the `buf[..4]` copy of the
shared commit path is the panicking slice operation — modelled by the
`panicSlice` error — rather than a returned I/O error, provided the stream
holds the arm's payload bytes. -/
theorem c9_short_buffer_panics (C : Nat) (st : PixelDecoder) (b1 : Nat)
    (rest : List Nat) (bufLen : Nat)
    (hact : st.pixels_in < st.pixels_count)
    (hb1 : OP_INDEX_END < b1)
    (hbuf : bufLen < 4)
    (hrest : 4 ≤ rest.length) :
    PixelDecoder.read C st (b1 :: rest) bufLen = .error .panicSlice := by
  unfold PixelDecoder.read
  split
  · rename_i e heq
    exfalso
    unfold readN at heq
    rw [if_pos (by simp)] at heq
    cases heq
  · rename_i b1s s1 heq
    have hb1s : b1s = [b1] ∧ rest = s1 := by
      unfold readN at heq
      rw [if_pos (by simp)] at heq
      cases heq
      exact ⟨rfl, rfl⟩
    obtain ⟨hB, hS⟩ := hb1s
    subst hB
    subst hS
    rw [if_neg (Nat.not_le.mpr hact)]
    rw [show ([b1] : List Nat).getD 0 0 = b1 from rfl]
    rw [if_neg (fun hc : OP_INDEX ≤ b1 ∧ b1 ≤ OP_INDEX_END => absurd hc.2 (by omega))]
    split
    · rename_i e heq2
      exact absurd heq2 (dispatchPixel_ok C st b1 rest hrest e)
    · rename_i pixel extra s2 heq2
      rw [if_pos hbuf]

/-- Witness for C9: a fresh 4-channel decoder, the gray op byte 0xFC (not an
index op), a 3-byte caller buffer and four payload bytes available. -/
theorem c9_short_buffer_panics_witness :
    (PixelDecoder.new 1).pixels_in < (PixelDecoder.new 1).pixels_count ∧
    OP_INDEX_END < 252 ∧ 3 < 4 ∧ 4 ≤ ([1, 2, 3, 4] : List Nat).length ∧
    PixelDecoder.read 4 (PixelDecoder.new 1) (252 :: [1, 2, 3, 4]) 3 =
      .error .panicSlice :=
  ⟨by decide, by decide, by decide, by decide,
   c9_short_buffer_panics 4 (PixelDecoder.new 1) 252 [1, 2, 3, 4] 3
     (by decide) (by decide) (by decide) (by decide)⟩

/-- A leading byte that reaches the decoder's empty catch-all arm: not an
index byte, not the RGB op, not the RGBA op in a session with four channels,
and in none of the run-length, coarse-diff or luma ranges.  For a 3-channel
session this includes the RGBA op itself. -/
def unmatchedByte (C b1 : Nat) : Prop :=
  OP_INDEX_END < b1 ∧ b1 ≠ OP_RGB ∧ ¬(b1 = OP_RGBA ∧ 4 ≤ C) ∧
  ¬(OP_RUNLENGTH ≤ b1 ∧ b1 ≤ OP_RUNLENGTH_END) ∧
  ¬(OP_DIFF ≤ b1 ∧ b1 ≤ OP_DIFF_END) ∧
  ¬(OP_LUMA ≤ b1 ∧ b1 ≤ OP_LUMA_END)

instance (C b1 : Nat) : Decidable (unmatchedByte C b1) := by
  unfold unmatchedByte
  infer_instance

/-- C10.  For any active session, a leading byte in the run-length range or
one matched by no dispatch arm (including the RGBA op in a 3-channel
session) is not an error: the decoder silently commits the pre-initialized
pixel (0,0,0,255) — writing it to the caller's buffer, storing it in the
cache slot of its hash and in the previous-pixel state — and consumes
exactly the one leading byte, as if a valid pixel had been decoded. -/
theorem c10_silent_pixel (C : Nat) (st : PixelDecoder) (b1 : Nat)
    (rest : List Nat) (bufLen : Nat)
    (hact : st.pixels_in < st.pixels_count)
    (hbuf : ¬bufLen < 4)
    (hb1 : (OP_RUNLENGTH ≤ b1 ∧ b1 ≤ OP_RUNLENGTH_END) ∨ unmatchedByte C b1) :
    PixelDecoder.read C st (b1 :: rest) bufLen =
      .ok ⟨[0, 0, 0, 255], 1,
           { st with cache := st.cache.set (pixel_hash ⟨0, 0, 0, 255⟩) ⟨0, 0, 0, 255⟩,
                     last_px := ⟨0, 0, 0, 255⟩,
                     pixels_in := st.pixels_in + 1 }, rest⟩ := by
  unfold PixelDecoder.read
  split
  · rename_i e heq
    exfalso
    unfold readN at heq
    rw [if_pos (by simp)] at heq
    cases heq
  · rename_i b1s s1 heq
    have hb1s : b1s = [b1] ∧ rest = s1 := by
      unfold readN at heq
      rw [if_pos (by simp)] at heq
      cases heq
      exact ⟨rfl, rfl⟩
    obtain ⟨hB, hS⟩ := hb1s
    subst hB
    subst hS
    rw [if_neg (Nat.not_le.mpr hact)]
    rw [show ([b1] : List Nat).getD 0 0 = b1 from rfl]
    have hnidx : ¬(OP_INDEX ≤ b1 ∧ b1 ≤ OP_INDEX_END) := by
      rcases hb1 with h | h
      · intro hc
        have hlt : OP_INDEX_END < OP_RUNLENGTH := by decide
        omega
      · exact fun hc => absurd hc.2 (by have := h.1; omega)
    rw [if_neg hnidx]
    have hd : dispatchPixel C st b1 rest = .ok (⟨0, 0, 0, 255⟩, 0, rest) := by
      unfold dispatchPixel
      rcases hb1 with h | h
      · have hR : ¬(b1 = OP_RGB) := by
          intro hbeq
          have hlt : OP_RUNLENGTH_END < OP_RGB := by decide
          omega
        have hRA : ¬(b1 = OP_RGBA ∧ 4 ≤ C) := by
          intro hc
          have hlt : OP_RUNLENGTH_END < OP_RGBA := by decide
          omega
        rw [if_neg hR, if_neg hRA, if_pos h]
      · obtain ⟨hgt, hR, hRA, hRL, hD, hL⟩ := h
        rw [if_neg hR, if_neg hRA, if_neg hRL, if_neg hD, if_neg hL]
    rw [hd]
    simp [hbuf, rgbaBytes]

/-- Witness for C10: the RGBA op byte 0xFF on a fresh 3-channel session —
matched by no arm because of the channel guard — silently commits
(0,0,0,255) and consumes only the leading byte. -/
theorem c10_silent_pixel_witness :
    PixelDecoder.read 3 (PixelDecoder.new 2) (255 :: [9]) 4 =
      .ok ⟨[0, 0, 0, 255], 1,
           { PixelDecoder.new 2 with
               cache := (PixelDecoder.new 2).cache.set
                 (pixel_hash ⟨0, 0, 0, 255⟩) ⟨0, 0, 0, 255⟩,
               last_px := ⟨0, 0, 0, 255⟩,
               pixels_in := (PixelDecoder.new 2).pixels_in + 1 }, [9]⟩ :=
  c10_silent_pixel 3 (PixelDecoder.new 2) 255 [9] 4 (by decide) (by decide)
    (by decide)

end Koi
